import Mathlib

/-!
Shallow embedding of the geometry/transform core of `ar-sun-trajectory`.

The embedded code:
* `setObjectQuaternion` (src/packages/ar-core/src/orientation.ts, src/unnamed/part_007)
* `quaternionToDeviceOrientation` (src/components/AREditor/ThirdPersonView.tsx)
* `calculateSunTrajectory`, `sunPositionTo3D`
  (src/packages/ar-core/src/sunTrajectory.ts, src/unnamed/part_005)
* `createARContent` (src/lib/createARContent.ts)

Quaternion algebra follows the Three.js conventions the source relies on
(component order x,y,z,w; `multiply` is the Hamilton product `this * q`;
`setFromEuler` with order YXZ; `invert` is the conjugate).  JavaScript
numbers are modelled as real numbers.
-/

namespace ARSun

open Real

/-- A quaternion, component order as in `THREE.Quaternion`. -/
structure Quat where
  x : ℝ
  y : ℝ
  z : ℝ
  w : ℝ

namespace Quat

/-- `THREE.Quaternion.multiplyQuaternions(a, b)` — the Hamilton product. -/
def mul (a b : Quat) : Quat where
  x := a.x * b.w + a.w * b.x + a.y * b.z - a.z * b.y
  y := a.y * b.w + a.w * b.y + a.z * b.x - a.x * b.z
  z := a.z * b.w + a.w * b.z + a.x * b.y - a.y * b.x
  w := a.w * b.w - a.x * b.x - a.y * b.y - a.z * b.z

/-- Squared length `x² + y² + z² + w²`. -/
def normSq (q : Quat) : ℝ := q.x ^ 2 + q.y ^ 2 + q.z ^ 2 + q.w ^ 2

/-- `THREE.Quaternion.length()`. -/
noncomputable def norm (q : Quat) : ℝ := Real.sqrt q.normSq

/-- `THREE.Quaternion.conjugate()`; `invert()` is an alias for it
(unit length is assumed by Three.js). -/
def conj (q : Quat) : Quat := ⟨-q.x, -q.y, -q.z, q.w⟩

/-- The identity quaternion `(0,0,0,1)`. -/
def one : Quat := ⟨0, 0, 0, 1⟩

theorem mul_one_q (q : Quat) : q.mul one = q := by
  cases q with
  | mk x y z w => simp [mul, one]

theorem mul_assoc_q (a b c : Quat) : (a.mul b).mul c = a.mul (b.mul c) := by
  cases a; cases b; cases c
  simp only [mul, Quat.mk.injEq]
  refine ⟨by ring, by ring, by ring, by ring⟩

theorem normSq_mul (a b : Quat) : (a.mul b).normSq = a.normSq * b.normSq := by
  cases a; cases b
  simp only [mul, normSq]
  ring

end Quat

/-- `THREE.Quaternion.setFromEuler` for an Euler triple `(x, y, z)` with
rotation order `'YXZ'`. -/
noncomputable def setFromEulerYXZ (x y z : ℝ) : Quat where
  x := sin (x / 2) * cos (y / 2) * cos (z / 2) + cos (x / 2) * sin (y / 2) * sin (z / 2)
  y := cos (x / 2) * sin (y / 2) * cos (z / 2) - sin (x / 2) * cos (y / 2) * sin (z / 2)
  z := cos (x / 2) * cos (y / 2) * sin (z / 2) - sin (x / 2) * sin (y / 2) * cos (z / 2)
  w := cos (x / 2) * cos (y / 2) * cos (z / 2) + sin (x / 2) * sin (y / 2) * sin (z / 2)

/-- `THREE.Quaternion.setFromAxisAngle(axis, angle)` for a unit axis
`(ax, ay, az)`. -/
noncomputable def setFromAxisAngle (ax ay az angle : ℝ) : Quat where
  x := ax * sin (angle / 2)
  y := ay * sin (angle / 2)
  z := az * sin (angle / 2)
  w := cos (angle / 2)

/-- The constant `q1 = new THREE.Quaternion(-Math.sqrt(0.5), 0, 0, Math.sqrt(0.5))`
from `setObjectQuaternion` — a −90° rotation about X. -/
noncomputable def q1 : Quat := ⟨-Real.sqrt 0.5, 0, 0, Real.sqrt 0.5⟩

/-- `setObjectQuaternion(quaternion, alpha, beta, gamma, orient, THREE)` from
src/packages/ar-core/src/orientation.ts (= src/unnamed/part_007), as the value
written into `quaternion`:
`euler.set(beta, alpha, -gamma, 'YXZ')`, `quaternion.setFromEuler(euler)`,
`quaternion.multiply(q1)`, `quaternion.multiply(q0.setFromAxisAngle(zee, -orient))`
with `zee = (0,0,1)`. -/
noncomputable def setObjectQuaternion (alpha beta gamma orient : ℝ) : Quat :=
  ((setFromEulerYXZ beta alpha (-gamma)).mul q1).mul (setFromAxisAngle 0 0 1 (-orient))

/-- The quaternion of a rotation by `θ` about the X axis (spec's description
of the fixed correction). -/
noncomputable def quatRotX (θ : ℝ) : Quat := ⟨sin (θ / 2), 0, 0, cos (θ / 2)⟩

/-- The quaternion of a rotation by `θ` about the Z axis (spec's description
of the screen correction). -/
noncomputable def quatRotZ (θ : ℝ) : Quat := ⟨0, 0, sin (θ / 2), cos (θ / 2)⟩

/-- The orientation converter as the spec's words describe it: the YXZ Euler
quaternion for `(beta, alpha, -gamma)`, right-multiplied by the −90°-about-X
quaternion, right-multiplied by the (−orient)-about-Z quaternion. -/
noncomputable def toRotationSpec (alpha beta gamma orient : ℝ) : Quat :=
  ((setFromEulerYXZ beta alpha (-gamma)).mul (quatRotX (-(π / 2)))).mul
    (quatRotZ (-orient))

theorem sqrt_half_eq : Real.sqrt 0.5 = Real.sqrt 2 / 2 := by
  have h : (0.5 : ℝ) = (Real.sqrt 2 / 2) ^ 2 := by
    rw [div_pow, Real.sq_sqrt (by norm_num : (0:ℝ) ≤ 2)]
    norm_num
  rw [h, Real.sqrt_sq (by positivity)]

theorem q1_eq_rotX : q1 = quatRotX (-(π / 2)) := by
  have h4 : -(π / 2) / 2 = -(π / 4) := by ring
  simp only [q1, quatRotX, h4, Real.sin_neg, Real.cos_neg, Real.sin_pi_div_four,
    Real.cos_pi_div_four, Quat.mk.injEq, sqrt_half_eq]

theorem axisAngle_zee (o : ℝ) : setFromAxisAngle 0 0 1 o = quatRotZ o := by
  simp [setFromAxisAngle, quatRotZ]

/-- C1: the orientation converter equals the spec's composition: the YXZ Euler
quaternion for (beta → X, alpha → Y, −gamma → Z), right-multiplied by the
quaternion of a −90° rotation about X, right-multiplied by the quaternion of a
rotation by −orient about Z. -/
theorem setObjectQuaternion_eq_spec (alpha beta gamma orient : ℝ) :
    setObjectQuaternion alpha beta gamma orient = toRotationSpec alpha beta gamma orient := by
  unfold setObjectQuaternion toRotationSpec
  rw [q1_eq_rotX, axisAngle_zee]

/-! ## Trajectory sampler (src/packages/ar-core/src/sunTrajectory.ts, src/unnamed/part_005) -/

/-- The part of a JavaScript `Date` the sampler manipulates: a local calendar
day plus hour/minute/second/millisecond fields.  `valueOf` is the millisecond
timeline JavaScript `Date` comparisons use. -/
structure DateTime where
  day : ℤ
  hour : ℤ
  minute : ℤ
  second : ℤ
  ms : ℤ
  deriving DecidableEq, Repr

/-- The millisecond value of a `DateTime` (what JS `Date` comparison compares). -/
def DateTime.valueOf (t : DateTime) : ℤ :=
  (((t.day * 24 + t.hour) * 60 + t.minute) * 60 + t.second) * 1000 + t.ms

/-- JavaScript `date.setHours(h, 0, 0, 0)`: same day, given hour, minute,
second and millisecond zeroed. -/
def DateTime.setHours0 (t : DateTime) (h : ℤ) : DateTime :=
  ⟨t.day, h, 0, 0, 0⟩

/-- `{ latitude, longitude }` from src/packages/ar-core/src/types.ts. -/
structure Location where
  latitude : ℝ
  longitude : ℝ

/-- What `SunCalc.getPosition` returns: azimuth and altitude in radians. -/
structure RadPosition where
  azimuth : ℝ
  altitude : ℝ

/-- What `SunCalc.getTimes` returns (the two fields the sampler reads). -/
structure SunTimes where
  sunrise : DateTime
  sunset : DateTime

/-- The external ephemeris collaborator (SunCalc), out of scope per the spec:
pure functions of time and coordinates. -/
structure Ephemeris where
  getPosition : DateTime → ℝ → ℝ → RadPosition
  getTimes : DateTime → ℝ → ℝ → SunTimes

/-- `SunPosition` from src/packages/ar-core/src/sunTrajectory.ts. -/
structure SunPosition where
  azimuth : ℝ
  altitude : ℝ
  time : DateTime

/-- `SunTrajectory` from src/packages/ar-core/src/sunTrajectory.ts. -/
structure SunTrajectory where
  positions : List SunPosition
  sunrise : DateTime
  sunset : DateTime
  currentPosition : Option SunPosition

/-- `calculateSunTrajectory(location, date)` from
src/packages/ar-core/src/sunTrajectory.ts (= src/unnamed/part_005).  The
ephemeris collaborator and the hidden `new Date()` current time are explicit
parameters. -/
noncomputable def calculateSunTrajectory (SunCalc : Ephemeris) (location : Location)
    (date : DateTime) (now : DateTime) : SunTrajectory :=
  let latitude := location.latitude
  let longitude := location.longitude
  let times := SunCalc.getTimes date latitude longitude
  let sunrise := times.sunrise
  let sunset := times.sunset
  let positions : List SunPosition :=
    (List.range 24).map (fun (hour : ℕ) =>
      let time := date.setHours0 (hour : ℤ)
      let position := SunCalc.getPosition time latitude longitude
      { azimuth := position.azimuth * (180 / π) + 180
        altitude := position.altitude * (180 / π)
        time := time })
  let currentPosition : Option SunPosition :=
    if sunrise.valueOf ≤ now.valueOf ∧ now.valueOf ≤ sunset.valueOf then
      let currentPos := SunCalc.getPosition now latitude longitude
      some { azimuth := currentPos.azimuth * (180 / π) + 180
             altitude := currentPos.altitude * (180 / π)
             time := now }
    else
      none
  { positions := positions
    sunrise := sunrise
    sunset := sunset
    currentPosition := currentPosition }

/-- `{x, y, z}` point returned by `sunPositionTo3D`. -/
structure Point3 where
  x : ℝ
  y : ℝ
  z : ℝ

/-- `sunPositionTo3D(position)` from src/packages/ar-core/src/sunTrajectory.ts. -/
noncomputable def sunPositionTo3D (position : SunPosition) : Point3 :=
  let azimuthRad := (position.azimuth - 180) * π / 180
  let altitudeRad := position.altitude * π / 180
  { x := cos altitudeRad * sin azimuthRad
    y := sin altitudeRad
    z := cos altitudeRad * cos azimuthRad }

/-- A constant ephemeris returning azimuth 0, altitude 0 and a 06:00/18:00
sunrise/sunset, used to instantiate theorems on concrete inputs. -/
def zeroEphemeris : Ephemeris where
  getPosition := fun _ _ _ => ⟨0, 0⟩
  getTimes := fun _ _ _ => ⟨⟨0, 6, 0, 0, 0⟩, ⟨0, 18, 0, 0, 0⟩⟩

/-- An ephemeris whose azimuth is always `π` (the top end of `atan2`'s
range), with the same sunrise/sunset as `zeroEphemeris`. -/
noncomputable def piEphemeris : Ephemeris where
  getPosition := fun _ _ _ => ⟨π, 0⟩
  getTimes := fun _ _ _ => ⟨⟨0, 6, 0, 0, 0⟩, ⟨0, 18, 0, 0, 0⟩⟩

/-- The spec's example location (Los Angeles area). -/
noncomputable def loc0 : Location := ⟨34.18, -118.37⟩

/-- A reference date at local noon of day 0. -/
def date0 : DateTime := ⟨0, 12, 0, 0, 0⟩

/-- 06:00 of day 0 — `zeroEphemeris`'s sunrise. -/
def sr0 : DateTime := ⟨0, 6, 0, 0, 0⟩

/-- One second before 06:00 of day 0. -/
def beforeSr0 : DateTime := ⟨0, 5, 59, 59, 0⟩

/-- C3: the positions list has exactly 24 entries; entry `h` (for hour
`h = 0,…,23`) carries the timestamp of the reference date with that hour and
minute = second = 0, azimuth equal to the collaborator's azimuth converted to
degrees plus 180, and altitude equal to the collaborator's altitude converted
to degrees; and the entries are in strictly ascending time order. -/
theorem calculateSunTrajectory_positions (E : Ephemeris) (loc : Location)
    (date now : DateTime) :
    (calculateSunTrajectory E loc date now).positions.length = 24 ∧
    (∀ h : ℕ, h < 24 →
      (calculateSunTrajectory E loc date now).positions[h]? =
        some { azimuth :=
                 (E.getPosition (date.setHours0 h) loc.latitude loc.longitude).azimuth
                   * (180 / π) + 180
               altitude :=
                 (E.getPosition (date.setHours0 h) loc.latitude loc.longitude).altitude
                   * (180 / π)
               time := date.setHours0 h }) ∧
    (∀ p ∈ (calculateSunTrajectory E loc date now).positions,
      p.time.minute = 0 ∧ p.time.second = 0) ∧
    List.Pairwise (fun p q : SunPosition => p.time.valueOf < q.time.valueOf)
      (calculateSunTrajectory E loc date now).positions := by
  refine ⟨?_, ?_, ?_, ?_⟩
  · simp only [calculateSunTrajectory]
    rw [List.length_map, List.length_range]
  · intro h hh
    simp only [calculateSunTrajectory]
    rw [List.getElem?_map, List.getElem?_range hh, Option.map_some']
  · intro p hp
    simp only [calculateSunTrajectory, List.mem_map, List.mem_range] at hp
    obtain ⟨h, -, rfl⟩ := hp
    exact ⟨rfl, rfl⟩
  · simp only [calculateSunTrajectory]
    rw [List.pairwise_map]
    refine (List.pairwise_lt_range 24).imp ?_
    intro a b hab
    simp only [DateTime.valueOf, DateTime.setHours0]
    omega

/-- Witness for C3 at a concrete ephemeris, location, date and hour. -/
theorem calculateSunTrajectory_positions_witness :
    (0 : ℕ) < 24 ∧
    (calculateSunTrajectory zeroEphemeris loc0 date0 date0).positions[0]? =
      some { azimuth :=
               (zeroEphemeris.getPosition (date0.setHours0 0) loc0.latitude
                   loc0.longitude).azimuth * (180 / π) + 180
             altitude :=
               (zeroEphemeris.getPosition (date0.setHours0 0) loc0.latitude
                   loc0.longitude).altitude * (180 / π)
             time := date0.setHours0 0 } :=
  ⟨by norm_num,
   (calculateSunTrajectory_positions zeroEphemeris loc0 date0 date0).2.1 0 (by norm_num)⟩

/-- C4: `currentPosition` is non-null exactly when `sunrise ≤ now ≤ sunset`
(endpoints inclusive); in particular `now = sunrise` (when sunrise ≤ sunset)
gives a non-null value and `now` one second (1000 ms) before sunrise gives
null. -/
theorem currentPosition_iff (E : Ephemeris) (loc : Location) (date now : DateTime) :
    ((calculateSunTrajectory E loc date now).currentPosition.isSome = true ↔
      ((E.getTimes date loc.latitude loc.longitude).sunrise.valueOf ≤ now.valueOf ∧
        now.valueOf ≤ (E.getTimes date loc.latitude loc.longitude).sunset.valueOf)) ∧
    ((E.getTimes date loc.latitude loc.longitude).sunrise.valueOf ≤
        (E.getTimes date loc.latitude loc.longitude).sunset.valueOf →
      (calculateSunTrajectory E loc date
        (E.getTimes date loc.latitude loc.longitude).sunrise).currentPosition.isSome = true) ∧
    (now.valueOf =
        (E.getTimes date loc.latitude loc.longitude).sunrise.valueOf - 1000 →
      (calculateSunTrajectory E loc date now).currentPosition = none) := by
  refine ⟨?_, ?_, ?_⟩
  · by_cases hc :
      (E.getTimes date loc.latitude loc.longitude).sunrise.valueOf ≤ now.valueOf ∧
        now.valueOf ≤ (E.getTimes date loc.latitude loc.longitude).sunset.valueOf
    · simp [calculateSunTrajectory, hc]
    · simp [calculateSunTrajectory, hc]
  · intro hle
    have hc :
        (E.getTimes date loc.latitude loc.longitude).sunrise.valueOf ≤
            (E.getTimes date loc.latitude loc.longitude).sunrise.valueOf ∧
          (E.getTimes date loc.latitude loc.longitude).sunrise.valueOf ≤
            (E.getTimes date loc.latitude loc.longitude).sunset.valueOf :=
      ⟨le_refl _, hle⟩
    simp [calculateSunTrajectory, hc]
  · intro hnow
    have hc : ¬ ((E.getTimes date loc.latitude loc.longitude).sunrise.valueOf ≤ now.valueOf ∧
        now.valueOf ≤ (E.getTimes date loc.latitude loc.longitude).sunset.valueOf) := by
      rw [hnow]
      omega
    simp [calculateSunTrajectory, hc]

/-- Witness for C4 at a concrete ephemeris: `now = sunrise` is non-null and
`now = sunrise − 1 s` is null. -/
theorem currentPosition_iff_witness :
    (zeroEphemeris.getTimes date0 loc0.latitude loc0.longitude).sunrise.valueOf ≤
      (zeroEphemeris.getTimes date0 loc0.latitude loc0.longitude).sunset.valueOf ∧
    (calculateSunTrajectory zeroEphemeris loc0 date0
      (zeroEphemeris.getTimes date0 loc0.latitude
        loc0.longitude).sunrise).currentPosition.isSome = true ∧
    beforeSr0.valueOf =
      (zeroEphemeris.getTimes date0 loc0.latitude loc0.longitude).sunrise.valueOf - 1000 ∧
    (calculateSunTrajectory zeroEphemeris loc0 date0 beforeSr0).currentPosition = none := by
  have h1 : (zeroEphemeris.getTimes date0 loc0.latitude loc0.longitude).sunrise.valueOf ≤
      (zeroEphemeris.getTimes date0 loc0.latitude loc0.longitude).sunset.valueOf := by
    decide
  have h2 : beforeSr0.valueOf =
      (zeroEphemeris.getTimes date0 loc0.latitude loc0.longitude).sunrise.valueOf - 1000 := by
    decide
  exact ⟨h1, (currentPosition_iff zeroEphemeris loc0 date0
      (zeroEphemeris.getTimes date0 loc0.latitude loc0.longitude).sunrise).2.1 h1,
    h2, (currentPosition_iff zeroEphemeris loc0 date0 beforeSr0).2.2 h2⟩

/-- C5: the projector returns exactly the spec's spherical-to-Cartesian
formula (with `azimuthAdjusted = (azimuth − 180°)` in radians) and the result
lies on the unit sphere: `|x² + y² + z² − 1| < 1e-9`. -/
theorem sunPositionTo3D_spec (p : SunPosition) :
    (sunPositionTo3D p).x =
      cos (p.altitude * π / 180) * sin ((p.azimuth - 180) * π / 180) ∧
    (sunPositionTo3D p).y = sin (p.altitude * π / 180) ∧
    (sunPositionTo3D p).z =
      cos (p.altitude * π / 180) * cos ((p.azimuth - 180) * π / 180) ∧
    |(sunPositionTo3D p).x ^ 2 + (sunPositionTo3D p).y ^ 2 +
        (sunPositionTo3D p).z ^ 2 - 1| < 1e-9 := by
  refine ⟨rfl, rfl, rfl, ?_⟩
  have haz := Real.sin_sq_add_cos_sq ((p.azimuth - 180) * π / 180)
  have halt := Real.sin_sq_add_cos_sq (p.altitude * π / 180)
  have hnorm : (sunPositionTo3D p).x ^ 2 + (sunPositionTo3D p).y ^ 2 +
      (sunPositionTo3D p).z ^ 2 = 1 := by
    simp only [sunPositionTo3D]
    nlinarith [haz, halt]
  rw [hnorm]
  norm_num

/-- Converts a collaborator azimuth `a ∈ (−π, π]` to the sampler's degree
convention and bounds the result. -/
theorem azConv_mem (a : ℝ) (h1 : -π < a) (h2 : a ≤ π) :
    0 < a * (180 / π) + 180 ∧ a * (180 / π) + 180 ≤ 360 := by
  have hπ : 0 < π := Real.pi_pos
  have hk : 0 < 180 / π := by positivity
  have hπk : π * (180 / π) = 180 := by field_simp
  constructor
  · nlinarith [mul_pos (show 0 < a + π by linarith) hk]
  · nlinarith [mul_nonneg (show 0 ≤ π - a by linarith) hk.le]

/-- C9 (amended): when the collaborator's azimuth lies in `(−π, π]`, every
produced azimuth (hourly samples and currentPosition) lies in `(0, 360]` —
not in `[0, 360)` as the original claim stated. -/
theorem azimuth_range (E : Ephemeris) (loc : Location) (date now : DateTime)
    (hE : ∀ t la lo, -π < (E.getPosition t la lo).azimuth ∧
      (E.getPosition t la lo).azimuth ≤ π) :
    (∀ p ∈ (calculateSunTrajectory E loc date now).positions,
      0 < p.azimuth ∧ p.azimuth ≤ 360) ∧
    (∀ p, (calculateSunTrajectory E loc date now).currentPosition = some p →
      0 < p.azimuth ∧ p.azimuth ≤ 360) := by
  constructor
  · intro p hp
    simp only [calculateSunTrajectory, List.mem_map, List.mem_range] at hp
    obtain ⟨h, -, rfl⟩ := hp
    exact azConv_mem _ (hE _ _ _).1 (hE _ _ _).2
  · intro p hp
    simp only [calculateSunTrajectory] at hp
    by_cases hc :
      (E.getTimes date loc.latitude loc.longitude).sunrise.valueOf ≤ now.valueOf ∧
        now.valueOf ≤ (E.getTimes date loc.latitude loc.longitude).sunset.valueOf
    · rw [if_pos hc] at hp
      obtain rfl := (Option.some_inj).mp hp
      exact azConv_mem _ (hE _ _ _).1 (hE _ _ _).2
    · rw [if_neg hc] at hp
      exact absurd hp (Option.some_ne_none p).symm

/-- Witness for C9's amended theorem at a concrete ephemeris. -/
theorem azimuth_range_witness :
    (∀ t la lo, -π < (zeroEphemeris.getPosition t la lo).azimuth ∧
      (zeroEphemeris.getPosition t la lo).azimuth ≤ π) ∧
    (∀ p ∈ (calculateSunTrajectory zeroEphemeris loc0 date0 date0).positions,
      0 < p.azimuth ∧ p.azimuth ≤ 360) := by
  have hE : ∀ t la lo, -π < (zeroEphemeris.getPosition t la lo).azimuth ∧
      (zeroEphemeris.getPosition t la lo).azimuth ≤ π := by
    intro t la lo
    exact ⟨by simpa [zeroEphemeris] using neg_neg_of_pos Real.pi_pos,
      by simpa [zeroEphemeris] using Real.pi_pos.le⟩
  exact ⟨hE, (azimuth_range zeroEphemeris loc0 date0 date0 hE).1⟩

/-- Counterexample for C9 as stated: with collaborator azimuth `π` (inside the
claimed precondition range `(−π, π]`), the produced azimuth is `360`, which is
not in `[0, 360)`. -/
theorem azimuth_range_cex :
    (∀ t la lo, -π < (piEphemeris.getPosition t la lo).azimuth ∧
      (piEphemeris.getPosition t la lo).azimuth ≤ π) ∧
    ∃ p ∈ (calculateSunTrajectory piEphemeris loc0 date0 date0).positions,
      p.azimuth = 360 ∧ ¬(0 ≤ p.azimuth ∧ p.azimuth < 360) := by
  constructor
  · intro t la lo
    exact ⟨by simpa [piEphemeris] using neg_lt_self Real.pi_pos, le_refl _⟩
  · refine ⟨{ azimuth := π * (180 / π) + 180
              altitude := 0 * (180 / π)
              time := date0.setHours0 0 }, ?_, ?_, ?_⟩
    · simp only [calculateSunTrajectory, List.mem_map, List.mem_range]
      exact ⟨0, by norm_num, by norm_num [piEphemeris, DateTime.setHours0]⟩
    · have h : π * (180 / π) = 180 := by field_simp
      rw [h]; norm_num
    · have h : π * (180 / π) = 180 := by field_simp
      simp only [h]
      norm_num

/-! ## Content builder (src/lib/createARContent.ts) -/

/-- The scaled point `new THREE.Vector3(pos3D.x * 10, pos3D.y * 10, pos3D.z * 10)`
built for each sample in `createARContent`. -/
noncomputable def scaledPoint (position : SunPosition) : Point3 :=
  let pos3D := sunPositionTo3D position
  ⟨pos3D.x * 10, pos3D.y * 10, pos3D.z * 10⟩

/-- The geometric content of the `ARContent` bundle built by `createARContent`:
the two polylines' point lists, the marker positions and the optional
current-position indicator point. -/
structure ARContent where
  aboveHorizonArc : List Point3
  belowHorizonArc : List Point3
  markers : List Point3
  currentIndicator : Option Point3

open Classical in
/-- The `trajectory.positions.forEach((position, index) => …)` loop of
`createARContent`: accumulates (aboveHorizonPoints, belowHorizonPoints,
marker positions).  `n` is `trajectory.positions.length`. -/
noncomputable def contentFold (n : ℕ) :
    List SunPosition → ℕ → List Point3 × List Point3 × List Point3
  | [], _ => ([], [], [])
  | position :: rest, index =>
    let tail := contentFold n rest (index + 1)
    let point := scaledPoint position
    if 0 ≤ position.altitude then
      (point :: tail.1, tail.2.1,
        if 0 < index ∧ index < n - 1 then point :: tail.2.2 else tail.2.2)
    else
      (tail.1, point :: tail.2.1, tail.2.2)

/-- `createARContent(scene, trajectory, THREE)` from src/lib/createARContent.ts,
restricted to the geometry it emits. -/
noncomputable def createARContent (trajectory : SunTrajectory) : ARContent :=
  let r := contentFold trajectory.positions.length trajectory.positions 0
  { aboveHorizonArc := r.1
    belowHorizonArc := r.2.1
    markers := r.2.2
    currentIndicator := trajectory.currentPosition.map scaledPoint }

open Classical in
theorem contentFold_partition (n : ℕ) (l : List SunPosition) (i : ℕ) :
    (contentFold n l i).1 =
      (l.filter (fun p => decide (0 ≤ p.altitude))).map scaledPoint ∧
    (contentFold n l i).2.1 =
      (l.filter (fun p => decide (p.altitude < 0))).map scaledPoint := by
  induction l generalizing i with
  | nil => simp [contentFold]
  | cons p rest ih =>
    by_cases hp : 0 ≤ p.altitude
    · have hnp : ¬ p.altitude < 0 := not_lt.mpr hp
      simp only [contentFold, if_pos hp, List.filter_cons,
        decide_eq_true_eq, hp, hnp, if_true, if_false, List.map_cons]
      exact ⟨by rw [(ih (i + 1)).1], by rw [(ih (i + 1)).2]⟩
    · have hnp : p.altitude < 0 := not_le.mp hp
      simp only [contentFold, if_neg hp, List.filter_cons,
        decide_eq_true_eq, hp, hnp, if_true, if_false, List.map_cons]
      exact ⟨by rw [(ih (i + 1)).1], by rw [(ih (i + 1)).2]⟩

open Classical in
/-- C6: the content builder puts each sample's projected (scaled) point into
the above-horizon polyline exactly when `altitude ≥ 0` and into the
below-horizon polyline otherwise, preserving order (both polylines are
order-preserving filters of the sample list); a 24-sample trajectory with all
altitudes positive gives an empty `belowHorizonArc` and an `aboveHorizonArc`
of all 24 points. -/
theorem createARContent_partition (t : SunTrajectory) :
    (createARContent t).aboveHorizonArc =
      (t.positions.filter (fun p => decide (0 ≤ p.altitude))).map scaledPoint ∧
    (createARContent t).belowHorizonArc =
      (t.positions.filter (fun p => decide (p.altitude < 0))).map scaledPoint ∧
    ((∀ p ∈ t.positions, 0 < p.altitude) → t.positions.length = 24 →
      (createARContent t).belowHorizonArc = [] ∧
      (createARContent t).aboveHorizonArc.length = 24) := by
  have h := contentFold_partition t.positions.length t.positions 0
  refine ⟨h.1, h.2, ?_⟩
  intro hpos hlen
  constructor
  · show (contentFold t.positions.length t.positions 0).2.1 = []
    rw [h.2, List.map_eq_nil_iff]
    rw [List.filter_eq_nil_iff]
    intro p hp
    simpa using not_lt.mpr (hpos p hp).le
  · show (contentFold t.positions.length t.positions 0).1.length = 24
    rw [h.1, List.length_map]
    have : t.positions.filter (fun p => decide (0 ≤ p.altitude)) = t.positions := by
      rw [List.filter_eq_self]
      intro p hp
      simpa using (hpos p hp).le
    rw [this, hlen]

/-- A sample with positive altitude, used to instantiate C6's theorem. -/
noncomputable def upSample : SunPosition := ⟨180, 45, date0⟩

/-- A 24-sample all-above-horizon trajectory. -/
noncomputable def upTrajectory : SunTrajectory :=
  ⟨List.replicate 24 upSample, sr0, ⟨0, 18, 0, 0, 0⟩, none⟩

/-- Witness for C6 on a concrete all-positive 24-sample trajectory. -/
theorem createARContent_partition_witness :
    (∀ p ∈ upTrajectory.positions, 0 < p.altitude) ∧
    upTrajectory.positions.length = 24 ∧
    ((createARContent upTrajectory).belowHorizonArc = [] ∧
      (createARContent upTrajectory).aboveHorizonArc.length = 24) := by
  have h1 : ∀ p ∈ upTrajectory.positions, 0 < p.altitude := by
    intro p hp
    have := List.eq_of_mem_replicate hp
    rw [this]
    norm_num [upSample]
  have h2 : upTrajectory.positions.length = 24 := by
    simp [upTrajectory]
  exact ⟨h1, h2, (createARContent_partition upTrajectory).2.2 h1 h2⟩

/-! ## Unit norm of the forward converter (C7) -/

theorem normSq_setFromEulerYXZ (x y z : ℝ) : (setFromEulerYXZ x y z).normSq = 1 := by
  simp only [setFromEulerYXZ, Quat.normSq]
  have h1 := Real.sin_sq_add_cos_sq (x / 2)
  have h2 := Real.sin_sq_add_cos_sq (y / 2)
  have h3 := Real.sin_sq_add_cos_sq (z / 2)
  have key :
      (sin (x / 2) * cos (y / 2) * cos (z / 2) + cos (x / 2) * sin (y / 2) * sin (z / 2)) ^ 2 +
        (cos (x / 2) * sin (y / 2) * cos (z / 2) - sin (x / 2) * cos (y / 2) * sin (z / 2)) ^ 2 +
        (cos (x / 2) * cos (y / 2) * sin (z / 2) - sin (x / 2) * sin (y / 2) * cos (z / 2)) ^ 2 +
        (cos (x / 2) * cos (y / 2) * cos (z / 2) + sin (x / 2) * sin (y / 2) * sin (z / 2)) ^ 2 =
      (sin (x / 2) ^ 2 + cos (x / 2) ^ 2) * (sin (y / 2) ^ 2 + cos (y / 2) ^ 2) *
        (sin (z / 2) ^ 2 + cos (z / 2) ^ 2) := by
    ring
  rw [key, h1, h2, h3]
  norm_num

theorem normSq_q1 : q1.normSq = 1 := by
  simp only [q1, Quat.normSq]
  have h : Real.sqrt 0.5 ^ 2 = 0.5 := Real.sq_sqrt (by norm_num)
  rw [neg_pow]
  rw [h]
  norm_num

theorem normSq_axisAngle_zee (o : ℝ) : (setFromAxisAngle 0 0 1 o).normSq = 1 := by
  simp only [setFromAxisAngle, Quat.normSq]
  have h := Real.sin_sq_add_cos_sq (o / 2)
  nlinarith [h]

/-- C7: the orientation converter always returns a unit-norm quaternion:
`|‖q‖ − 1| < 1e-6` for every input. -/
theorem setObjectQuaternion_unit (alpha beta gamma orient : ℝ) :
    |(setObjectQuaternion alpha beta gamma orient).norm - 1| < 1e-6 := by
  have h : (setObjectQuaternion alpha beta gamma orient).normSq = 1 := by
    unfold setObjectQuaternion
    rw [Quat.normSq_mul, Quat.normSq_mul, normSq_setFromEulerYXZ, normSq_q1,
      normSq_axisAngle_zee]
    norm_num
  rw [Quat.norm, h, Real.sqrt_one]
  norm_num

/-! ## Inverse orientation mapper (src/components/AREditor/ThirdPersonView.tsx) -/

/-- `THREE.MathUtils.clamp(value, min, max) = Math.max(min, Math.min(max, value))`. -/
noncomputable def clamp (value minv maxv : ℝ) : ℝ := max minv (min maxv value)

/-- JavaScript `Math.atan2(y, x)`, modelled as the complex argument of
`x + y·i` (range `(−π, π]`). -/
noncomputable def atan2 (y x : ℝ) : ℝ := Complex.arg ⟨x, y⟩

/-- An Euler triple as held by `THREE.Euler` (order fixed to `'YXZ'` here). -/
structure EulerAngles where
  x : ℝ
  y : ℝ
  z : ℝ

/-- `new THREE.Euler().setFromQuaternion(q, 'YXZ')`: Three.js converts the
quaternion to a rotation matrix (`makeRotationFromQuaternion`) and extracts
the `'YXZ'` Euler angles from its entries. -/
noncomputable def eulerYXZFromQuat (q : Quat) : EulerAngles :=
  let m11 := 1 - 2 * (q.y ^ 2 + q.z ^ 2)
  let m13 := 2 * (q.x * q.z + q.w * q.y)
  let m21 := 2 * (q.x * q.y + q.w * q.z)
  let m22 := 1 - 2 * (q.x ^ 2 + q.z ^ 2)
  let m23 := 2 * (q.y * q.z - q.w * q.x)
  let m31 := 2 * (q.x * q.z - q.w * q.y)
  let m33 := 1 - 2 * (q.x ^ 2 + q.y ^ 2)
  if |m23| < 0.9999999 then
    ⟨Real.arcsin (-(clamp m23 (-1) 1)), atan2 m13 m33, atan2 m21 m22⟩
  else
    ⟨Real.arcsin (-(clamp m23 (-1) 1)), atan2 (-m31) m11, 0⟩

/-- `THREE.MathUtils.radToDeg`. -/
noncomputable def radToDeg (radians : ℝ) : ℝ := radians * (180 / π)

/-- Degrees to radians (`DEG2RAD` in ThirdPersonView.tsx). -/
noncomputable def degToRad (degrees : ℝ) : ℝ := degrees * (π / 180)

/-- `q1Inverse = q1.clone().invert()` from ThirdPersonView.tsx (Three.js
`invert` is the conjugate). -/
noncomputable def q1Inverse : Quat := q1.conj

/-- The `{alpha, beta, gamma}` record returned by
`quaternionToDeviceOrientation` (degrees). -/
structure DeviceAngles where
  alpha : ℝ
  beta : ℝ
  gamma : ℝ

/-- `quaternionToDeviceOrientation(quaternion)` from ThirdPersonView.tsx:
`q = quaternion.clone(); q.multiply(q1Inverse);`
`euler = new THREE.Euler().setFromQuaternion(q, 'YXZ');`
`alpha = radToDeg(euler.y), beta = radToDeg(euler.x), gamma = -radToDeg(euler.z)`. -/
noncomputable def quaternionToDeviceOrientation (quaternion : Quat) : DeviceAngles :=
  let q := quaternion.mul q1Inverse
  let euler := eulerYXZFromQuat q
  { alpha := radToDeg euler.y
    beta := radToDeg euler.x
    gamma := -(radToDeg euler.z) }

theorem abs_atan2_le (y x : ℝ) : |atan2 y x| ≤ π := by
  rw [abs_le]
  exact ⟨(Complex.neg_pi_lt_arg _).le, Complex.arg_le_pi _⟩

theorem abs_arcsin_le (v : ℝ) : |Real.arcsin v| ≤ π / 2 := by
  rw [abs_le]
  exact ⟨Real.neg_pi_div_two_le_arcsin v, Real.arcsin_le_pi_div_two v⟩

theorem abs_radToDeg_le {r c : ℝ} (h : |r| ≤ c) : |radToDeg r| ≤ c * (180 / π) := by
  have hk : 0 < 180 / π := by positivity
  rw [radToDeg, abs_mul, abs_of_pos hk]
  exact mul_le_mul_of_nonneg_right h hk.le

theorem pi_mul_k : π * (180 / π) = 180 := by
  field_simp

theorem abs_euler_x_le (q : Quat) : |(eulerYXZFromQuat q).x| ≤ π / 2 := by
  simp only [eulerYXZFromQuat]
  split_ifs <;> exact abs_arcsin_le _

theorem abs_euler_y_le (q : Quat) : |(eulerYXZFromQuat q).y| ≤ π := by
  simp only [eulerYXZFromQuat]
  split_ifs <;> exact abs_atan2_le _ _

theorem abs_euler_z_le (q : Quat) : |(eulerYXZFromQuat q).z| ≤ π := by
  simp only [eulerYXZFromQuat]
  split_ifs
  · exact abs_atan2_le _ _
  · simp [Real.pi_pos.le]

/-- Unconditional bounds on the inverse mapper's output angles (shared by the
safety and range claims). -/
theorem qtdo_bounds (q : Quat) :
    |(quaternionToDeviceOrientation q).alpha| ≤ 180 ∧
    |(quaternionToDeviceOrientation q).beta| ≤ 90 ∧
    |(quaternionToDeviceOrientation q).gamma| ≤ 180 := by
  refine ⟨?_, ?_, ?_⟩
  · have h := abs_radToDeg_le (abs_euler_y_le (q.mul q1Inverse))
    rw [pi_mul_k] at h
    exact h
  · have h := abs_radToDeg_le (abs_euler_x_le (q.mul q1Inverse))
    have h90 : π / 2 * (180 / π) = 90 := by
      field_simp
      ring
    rw [h90] at h
    exact h
  · have h := abs_radToDeg_le (abs_euler_z_le (q.mul q1Inverse))
    rw [pi_mul_k] at h
    simpa [quaternionToDeviceOrientation, abs_neg] using h

/-- C8: the inverse mapper is total and bounded on every unit quaternion —
each returned angle is a well-defined real number with `|alpha| ≤ 180`,
`|beta| ≤ 90`, `|gamma| ≤ 180` (in particular never NaN/undefined). -/
theorem quaternionToDeviceOrientation_total (q : Quat) (_hq : q.normSq = 1) :
    |(quaternionToDeviceOrientation q).alpha| ≤ 180 ∧
    |(quaternionToDeviceOrientation q).beta| ≤ 90 ∧
    |(quaternionToDeviceOrientation q).gamma| ≤ 180 :=
  qtdo_bounds q

/-- Witness for C8 at a gimbal-lock input: the identity quaternion is the
image of `beta = 90°` under the forward converter, and the inverse mapper's
degenerate branch still returns bounded angles there. -/
theorem quaternionToDeviceOrientation_total_witness :
    Quat.normSq ⟨0, 0, 0, 1⟩ = 1 ∧
    (|(quaternionToDeviceOrientation ⟨0, 0, 0, 1⟩).alpha| ≤ 180 ∧
      |(quaternionToDeviceOrientation ⟨0, 0, 0, 1⟩).beta| ≤ 90 ∧
      |(quaternionToDeviceOrientation ⟨0, 0, 0, 1⟩).gamma| ≤ 180) := by
  have h : Quat.normSq ⟨0, 0, 0, 1⟩ = 1 := by
    simp [Quat.normSq]
  exact ⟨h, quaternionToDeviceOrientation_total ⟨0, 0, 0, 1⟩ h⟩

/-- The quaternion `toRotation(−90°, 0, 0, 0)` would produce: the inverse
mapper sends it to a negative alpha. -/
noncomputable def qNegAlpha : Quat := ⟨-(1 / 2), -(1 / 2), -(1 / 2), 1 / 2⟩

theorem qNegAlpha_after_inverse :
    qNegAlpha.mul q1Inverse = ⟨0, -Real.sqrt 0.5, 0, Real.sqrt 0.5⟩ := by
  simp only [qNegAlpha, q1Inverse, Quat.conj, q1, Quat.mul, Quat.mk.injEq, neg_neg]
  refine ⟨by ring, by ring, by ring, by ring⟩

theorem qNegAlpha_alpha_neg : (quaternionToDeviceOrientation qNegAlpha).alpha < 0 := by
  have hsm : Real.sqrt 0.5 * Real.sqrt 0.5 = 0.5 := Real.mul_self_sqrt (by norm_num)
  have hs : Real.sqrt 0.5 ^ 2 = 0.5 := Real.sq_sqrt (by norm_num)
  have heuler : (eulerYXZFromQuat (qNegAlpha.mul q1Inverse)).y = atan2 (-1) 0 := by
    rw [qNegAlpha_after_inverse]
    simp only [eulerYXZFromQuat]
    rw [if_pos (by norm_num : |2 * (-Real.sqrt 0.5 * 0 - Real.sqrt 0.5 * 0)| < 0.9999999)]
    have h13 : 2 * (0 * 0 + Real.sqrt 0.5 * -Real.sqrt 0.5) = -1 := by
      rw [show (0:ℝ) * 0 + Real.sqrt 0.5 * -Real.sqrt 0.5 =
        -(Real.sqrt 0.5 * Real.sqrt 0.5) by ring, hsm]
      norm_num
    have h33 : 1 - 2 * ((0:ℝ) ^ 2 + (-Real.sqrt 0.5) ^ 2) = 0 := by
      rw [show ((0:ℝ) ^ 2 + (-Real.sqrt 0.5) ^ 2) = Real.sqrt 0.5 ^ 2 by ring, hs]
      norm_num
    rw [h13, h33]
  have harg : atan2 (-1) 0 = -(π / 2) := by
    have hI : (⟨0, -1⟩ : ℂ) = -Complex.I := by
      apply Complex.ext <;> simp
    rw [atan2, hI, Complex.arg_neg_I]
  show radToDeg (eulerYXZFromQuat (qNegAlpha.mul q1Inverse)).y < 0
  rw [heuler, harg, radToDeg]
  have hk : 0 < 180 / π := by positivity
  have hneg : -(π / 2) < 0 := by
    have := Real.pi_pos
    linarith
  exact mul_neg_of_neg_of_pos hneg hk

/-- C10: the inverse mapper always returns `beta ∈ [−90, 90]` (the arcsine
range of the YXZ extraction) and `alpha, gamma ∈ [−180, 180]`; and it can
return a negative alpha (not an angle normalized to `[0, 360)`), witnessed by
the unit quaternion `qNegAlpha`. -/
theorem quaternionToDeviceOrientation_ranges :
    (∀ q : Quat,
      -90 ≤ (quaternionToDeviceOrientation q).beta ∧
      (quaternionToDeviceOrientation q).beta ≤ 90 ∧
      -180 ≤ (quaternionToDeviceOrientation q).alpha ∧
      (quaternionToDeviceOrientation q).alpha ≤ 180 ∧
      -180 ≤ (quaternionToDeviceOrientation q).gamma ∧
      (quaternionToDeviceOrientation q).gamma ≤ 180) ∧
    (qNegAlpha.normSq = 1 ∧ (quaternionToDeviceOrientation qNegAlpha).alpha < 0) := by
  refine ⟨?_, ?_, qNegAlpha_alpha_neg⟩
  · intro q
    obtain ⟨ha, hb, hg⟩ := qtdo_bounds q
    exact ⟨(abs_le.mp hb).1, (abs_le.mp hb).2, (abs_le.mp ha).1, (abs_le.mp ha).2,
      (abs_le.mp hg).1, (abs_le.mp hg).2⟩
  · simp only [qNegAlpha, Quat.normSq]
    norm_num

/-! ## Matrix entries of the YXZ Euler quaternion (for the round-trip C2) -/

theorem sin_eq_two_half (x : ℝ) : sin x = 2 * sin (x / 2) * cos (x / 2) := by
  have h := Real.sin_two_mul (x / 2)
  rwa [show 2 * (x / 2) = x by ring] at h

theorem cos_eq_two_half (x : ℝ) : cos x = 2 * cos (x / 2) ^ 2 - 1 := by
  have h := Real.cos_two_mul (x / 2)
  rwa [show 2 * (x / 2) = x by ring] at h

theorem euler_m23 (x y z : ℝ) :
    2 * ((setFromEulerYXZ x y z).y * (setFromEulerYXZ x y z).z -
      (setFromEulerYXZ x y z).w * (setFromEulerYXZ x y z).x) = -sin x := by
  have h2 := Real.sin_sq_add_cos_sq (y / 2)
  have h3 := Real.sin_sq_add_cos_sq (z / 2)
  simp only [setFromEulerYXZ]
  rw [sin_eq_two_half x]
  linear_combination (-2 * sin (x / 2) * cos (x / 2) * (sin (z / 2) ^ 2 + cos (z / 2) ^ 2)) * h2 +
    (-2 * sin (x / 2) * cos (x / 2)) * h3

theorem euler_m13 (x y z : ℝ) :
    2 * ((setFromEulerYXZ x y z).x * (setFromEulerYXZ x y z).z +
      (setFromEulerYXZ x y z).w * (setFromEulerYXZ x y z).y) = sin y * cos x := by
  have h1 := Real.sin_sq_add_cos_sq (x / 2)
  have h3 := Real.sin_sq_add_cos_sq (z / 2)
  simp only [setFromEulerYXZ]
  rw [sin_eq_two_half y, cos_eq_two_half x]
  linear_combination (2 * sin (y / 2) * cos (y / 2) * (2 * cos (x / 2) ^ 2 - 1)) * h3 -
    (2 * sin (y / 2) * cos (y / 2) * (sin (z / 2) ^ 2 + cos (z / 2) ^ 2)) * h1

theorem euler_m33 (x y z : ℝ) :
    1 - 2 * ((setFromEulerYXZ x y z).x ^ 2 + (setFromEulerYXZ x y z).y ^ 2) =
      cos y * cos x := by
  have h1 := Real.sin_sq_add_cos_sq (x / 2)
  have h2 := Real.sin_sq_add_cos_sq (y / 2)
  have h3 := Real.sin_sq_add_cos_sq (z / 2)
  simp only [setFromEulerYXZ]
  rw [cos_eq_two_half y, cos_eq_two_half x]
  linear_combination (-2 * cos (y / 2) ^ 2) * h1 + (-2 * cos (x / 2) ^ 2) * h2 +
    (-2 * (sin (x / 2) ^ 2 * cos (y / 2) ^ 2 + cos (x / 2) ^ 2 * sin (y / 2) ^ 2)) * h3

theorem euler_m21 (x y z : ℝ) :
    2 * ((setFromEulerYXZ x y z).x * (setFromEulerYXZ x y z).y +
      (setFromEulerYXZ x y z).w * (setFromEulerYXZ x y z).z) = cos x * sin z := by
  have h1 := Real.sin_sq_add_cos_sq (x / 2)
  have h2 := Real.sin_sq_add_cos_sq (y / 2)
  simp only [setFromEulerYXZ]
  rw [cos_eq_two_half x, sin_eq_two_half z]
  linear_combination (2 * sin (z / 2) * cos (z / 2) * (2 * cos (x / 2) ^ 2 - 1)) * h2 -
    (2 * sin (z / 2) * cos (z / 2) * (sin (y / 2) ^ 2 + cos (y / 2) ^ 2)) * h1

theorem euler_m22 (x y z : ℝ) :
    1 - 2 * ((setFromEulerYXZ x y z).x ^ 2 + (setFromEulerYXZ x y z).z ^ 2) =
      cos x * cos z := by
  have h1 := Real.sin_sq_add_cos_sq (x / 2)
  have h2 := Real.sin_sq_add_cos_sq (y / 2)
  have h3 := Real.sin_sq_add_cos_sq (z / 2)
  simp only [setFromEulerYXZ]
  rw [cos_eq_two_half x, cos_eq_two_half z]
  linear_combination (-2 * cos (z / 2) ^ 2) * h1 + (-2 * cos (x / 2) ^ 2) * h3 +
    (-2 * (sin (x / 2) ^ 2 * cos (z / 2) ^ 2 + cos (x / 2) ^ 2 * sin (z / 2) ^ 2)) * h2

/-! ## Round trip of the forward converter and the inverse mapper (C2) -/

theorem axisAngle_zero : setFromAxisAngle 0 0 1 0 = Quat.one := by
  simp [setFromAxisAngle, Quat.one]

theorem q1_mul_q1Inverse : q1.mul q1Inverse = Quat.one := by
  have hsm : Real.sqrt 0.5 * Real.sqrt 0.5 = 0.5 := Real.mul_self_sqrt (by norm_num)
  simp only [q1, q1Inverse, Quat.conj, Quat.mul, Quat.one, Quat.mk.injEq, neg_neg]
  refine ⟨by ring, by ring, by ring, by linear_combination 2 * hsm⟩

/-- With screen rotation 0, multiplying the converter's output by `q1Inverse`
recovers the YXZ Euler quaternion exactly. -/
theorem setObjectQuaternion_zero_mul_inv (a b g : ℝ) :
    (setObjectQuaternion a b g 0).mul q1Inverse = setFromEulerYXZ b a (-g) := by
  unfold setObjectQuaternion
  rw [neg_zero, axisAngle_zero, Quat.mul_one_q, Quat.mul_assoc_q, q1_mul_q1Inverse,
    Quat.mul_one_q]

theorem degToRad_radToDeg (v : ℝ) : degToRad (radToDeg v) = v := by
  unfold degToRad radToDeg
  have hπ : (π : ℝ) ≠ 0 := Real.pi_ne_zero
  field_simp

theorem clamp_of_mem (v : ℝ) (h1 : -1 ≤ v) (h2 : v ≤ 1) : clamp v (-1) 1 = v := by
  unfold clamp
  rw [min_eq_right h2, max_eq_right h1]

theorem arg_mk_eq (θ : ℝ) (hθ1 : -π < θ) (hθ2 : θ ≤ π) {r : ℝ} (hr : 0 < r) :
    Complex.arg ⟨cos θ * r, sin θ * r⟩ = θ := by
  have hz : (⟨cos θ * r, sin θ * r⟩ : ℂ) =
      (r : ℂ) * ((cos θ : ℂ) + (sin θ : ℂ) * Complex.I) := by
    apply Complex.ext
    · simp [Complex.cos_ofReal_re]
      ring
    · simp [Complex.sin_ofReal_re]
      ring
  rw [hz, Complex.arg_real_mul _ hr, Complex.ofReal_cos, Complex.ofReal_sin,
    Complex.arg_cos_add_sin_mul_I ⟨hθ1, hθ2⟩]

/-- C2 (amended): the round trip is exact — hence within 1e-4 radians — for
triples in the extraction's principal ranges: `alpha ∈ (−π, π]`,
`beta ∈ [−π/2, π/2]` with `|sin beta| < 0.9999999` (away from gimbal lock),
`gamma ∈ [−π, π)`. -/
theorem roundtrip_orientation (a b g : ℝ)
    (ha1 : -π < a) (ha2 : a ≤ π)
    (hb1 : -(π / 2) ≤ b) (hb2 : b ≤ π / 2) (hbs : |sin b| < 0.9999999)
    (hg1 : -π ≤ g) (hg2 : g < π) :
    |degToRad (quaternionToDeviceOrientation (setObjectQuaternion a b g 0)).alpha - a| < 1e-4 ∧
    |degToRad (quaternionToDeviceOrientation (setObjectQuaternion a b g 0)).beta - b| < 1e-4 ∧
    |degToRad (quaternionToDeviceOrientation (setObjectQuaternion a b g 0)).gamma - g| < 1e-4 := by
  have hE := setObjectQuaternion_zero_mul_inv a b g
  have h23 := euler_m23 b a (-g)
  have h13 := euler_m13 b a (-g)
  have h33 := euler_m33 b a (-g)
  have h21 := euler_m21 b a (-g)
  have h22 := euler_m22 b a (-g)
  have hcb : 0 < cos b := by
    have h0 : 0 ≤ cos b := Real.cos_nonneg_of_mem_Icc ⟨hb1, hb2⟩
    rcases h0.lt_or_eq with h | h
    · exact h
    · exfalso
      have hp := Real.sin_sq_add_cos_sq b
      rw [← h] at hp
      have habs := abs_lt.mp hbs
      nlinarith [habs.1, habs.2, hp]
  have heuler : eulerYXZFromQuat (setFromEulerYXZ b a (-g)) = ⟨b, a, -g⟩ := by
    simp only [eulerYXZFromQuat]
    rw [h23, h13, h33, h21, h22]
    rw [if_pos (show |(-sin b)| < 0.9999999 by rwa [abs_neg])]
    have hx : Real.arcsin (-(clamp (-sin b) (-1) 1)) = b := by
      rw [clamp_of_mem (-sin b) (by linarith [Real.sin_le_one b])
          (by linarith [Real.neg_one_le_sin b]), neg_neg,
        Real.arcsin_sin hb1 hb2]
    have hy : atan2 (sin a * cos b) (cos a * cos b) = a := by
      unfold atan2
      exact arg_mk_eq a ha1 ha2 hcb
    have hz : atan2 (cos b * sin (-g)) (cos b * cos (-g)) = -g := by
      unfold atan2
      have h := arg_mk_eq (-g) (by linarith) (by linarith) hcb
      rw [mul_comm (cos (-g)) (cos b), mul_comm (sin (-g)) (cos b)] at h
      exact h
    rw [hx, hy, hz]
  have hqtdo : quaternionToDeviceOrientation (setObjectQuaternion a b g 0) =
      ⟨radToDeg a, radToDeg b, -(radToDeg (-g))⟩ := by
    simp only [quaternionToDeviceOrientation]
    rw [hE, heuler]
  rw [hqtdo]
  have hgam : -(radToDeg (-g)) = radToDeg g := by
    unfold radToDeg
    ring
  refine ⟨?_, ?_, ?_⟩
  · show |degToRad (radToDeg a) - a| < 1e-4
    rw [degToRad_radToDeg, sub_self, abs_zero]
    norm_num
  · show |degToRad (radToDeg b) - b| < 1e-4
    rw [degToRad_radToDeg, sub_self, abs_zero]
    norm_num
  · show |degToRad (-(radToDeg (-g))) - g| < 1e-4
    rw [hgam, degToRad_radToDeg, sub_self, abs_zero]
    norm_num

/-- Counterexample to C2 as stated: the triple `(alpha, beta, gamma) =
(0, π, 0)` (beta = 180°) is not at a gimbal-lock singularity (`sin beta = 0`),
yet the round trip returns `alpha = 180°` — an error of `π` radians on alpha,
far above 1e-4. -/
theorem roundtrip_orientation_cex :
    |sin π| < 0.9999999 ∧
    ¬ (|degToRad (quaternionToDeviceOrientation
        (setObjectQuaternion 0 π 0 0)).alpha - 0| < 1e-4) := by
  constructor
  · rw [Real.sin_pi]
    norm_num
  · have hq : (setObjectQuaternion 0 π 0 0).mul q1Inverse = setFromEulerYXZ π 0 0 := by
      have h := setObjectQuaternion_zero_mul_inv 0 π 0
      rwa [neg_zero] at h
    have hEval : setFromEulerYXZ π 0 0 = ⟨1, 0, 0, 0⟩ := by
      simp [setFromEulerYXZ]
    have harg : Complex.arg ⟨-1, 0⟩ = π := by
      rw [show (⟨-1, 0⟩ : ℂ) = (-1 : ℂ) by
        apply Complex.ext <;> simp]
      exact Complex.arg_neg_one
    have heuler : (eulerYXZFromQuat ⟨1, 0, 0, 0⟩).y = π := by
      simp only [eulerYXZFromQuat]
      rw [if_pos (show |2 * ((0:ℝ) * 0 - 0 * 1)| < 0.9999999 by norm_num)]
      show atan2 (2 * (1 * 0 + 0 * 0)) (1 - 2 * ((1:ℝ) ^ 2 + 0 ^ 2)) = π
      unfold atan2
      rw [show (2 : ℝ) * (1 * 0 + 0 * 0) = 0 by norm_num,
        show (1 : ℝ) - 2 * ((1:ℝ) ^ 2 + 0 ^ 2) = -1 by norm_num]
      exact harg
    have halpha : (quaternionToDeviceOrientation (setObjectQuaternion 0 π 0 0)).alpha =
        radToDeg π := by
      simp only [quaternionToDeviceOrientation]
      rw [hq, hEval, heuler]
    rw [halpha, degToRad_radToDeg, sub_zero, not_lt,
      abs_of_pos Real.pi_pos]
    linarith [Real.pi_gt_three]

/-- Witness for C2's amended theorem at `(alpha, beta, gamma) = (0, 0, 0)`. -/
theorem roundtrip_orientation_witness :
    (-π < 0 ∧ (0:ℝ) ≤ π ∧ -(π / 2) ≤ 0 ∧ (0:ℝ) ≤ π / 2 ∧
      |sin (0:ℝ)| < 0.9999999 ∧ -π ≤ 0 ∧ (0:ℝ) < π) ∧
    (|degToRad (quaternionToDeviceOrientation (setObjectQuaternion 0 0 0 0)).alpha - 0| < 1e-4 ∧
     |degToRad (quaternionToDeviceOrientation (setObjectQuaternion 0 0 0 0)).beta - 0| < 1e-4 ∧
     |degToRad (quaternionToDeviceOrientation (setObjectQuaternion 0 0 0 0)).gamma - 0| < 1e-4) := by
  have hπ := Real.pi_pos
  have h1 : -π < (0:ℝ) := by linarith
  have h2 : (0:ℝ) ≤ π := by linarith
  have h3 : -(π / 2) ≤ (0:ℝ) := by linarith
  have h4 : (0:ℝ) ≤ π / 2 := by linarith
  have h5 : |sin (0:ℝ)| < 0.9999999 := by
    rw [Real.sin_zero]
    norm_num
  have h6 : -π ≤ (0:ℝ) := by linarith
  have h7 : (0:ℝ) < π := hπ
  exact ⟨⟨h1, h2, h3, h4, h5, h6, h7⟩,
    roundtrip_orientation 0 0 0 h1 h2 h3 h4 h5 h6 h7⟩

end ARSun
